import Mathlib

/-!
Verification of the jsdoc-plugin-esnext doclet normalization pipeline
(src/index.js).  The plugin exports three event handlers:

* symbolFound        - per-symbol corrections at discovery time
* parseComplete      - the collection-complete passes (private-member
                       finalizer, static-scope normalizer, default-export
                       resolver)
* processingComplete - the post-augmentation finalizer

Doclets are JavaScript objects whose relevant fields are strings that may
be absent (undefined); we model such fields as Option String.  JavaScript
peculiarities that matter are modelled explicitly: template-literal
coercion of undefined to the text "undefined", falsiness of the empty
string, String.prototype.replace with a string pattern replacing only the
first occurrence, and the points where the source would dereference an
undefined value and raise a TypeError (captured by the ...Throws
predicates; the total functions below give the semantics of throw-free
runs).
-/

/-- Coercion of a possibly-undefined string into a template literal,
as in JavaScript: undefined prints as "undefined". -/
def jsStr : Option String → String
  | none => "undefined"
  | some s => s

/-- JavaScript truthiness of a possibly-undefined string:
undefined and the empty string are falsy. -/
def jsTruthy : Option String → Bool
  | none => false
  | some s => !(s == "")

/-- Bool test that cs begins with the pattern ps (second argument). -/
def leadsWith : List Char → List Char → Bool
  | _, [] => true
  | [], _ => false
  | a :: as, b :: bs => a == b && leadsWith as bs

/-- String.prototype.startsWith. -/
def jsStartsWith (s p : String) : Bool := leadsWith s.data p.data

/-- String.prototype.includes for a one-character needle. -/
def jsIncludes (s : String) (c : Char) : Bool := s.data.contains c

/-- Replace the first occurrence of c in the list by r. -/
def replFirstL : List Char → Char → Char → List Char
  | [], _, _ => []
  | a :: as, c, r => if a == c then r :: as else a :: replFirstL as c r

/-- String.prototype.replace with a one-character string pattern:
JavaScript replaces only the first occurrence. -/
def jsReplaceFirst (s : String) (c r : Char) : String :=
  String.mk (replFirstL s.data c r)

/-- The recurring source idiom
if (x and x.includes init-sep) x = x.replace(init-sep, static-sep)
applied to a possibly-undefined string field. -/
def rewriteSep : Option String → Option String
  | none => none
  | some s =>
    if !(s == "") && jsIncludes s '#' then some (jsReplaceFirst s '#' '.')
    else some s

/-- Truthiness-guarded includes test: x and x.includes(c). -/
def truthyIncludes (o : Option String) (c : Char) : Bool :=
  match o with
  | some s => !(s == "") && jsIncludes s c
  | none => false

/-- Whitespace class of the regular-expression escape used in the
default-export type annotation pattern. -/
def isWsChar (c : Char) : Bool :=
  c == ' ' || c == '\t' || c == '\n' || c == '\r' || c == '\x0b' || c == '\x0c'

/-- Drop leading regex whitespace. -/
def dropWs : List Char → List Char
  | [] => []
  | c :: cs => if isWsChar c then dropWs cs else c :: cs

/-- String.prototype.trim: strip whitespace from both ends. -/
def jsTrim (s : String) : String :=
  String.mk (((s.data.dropWhile isWsChar).reverse.dropWhile isWsChar).reverse)

/-- Try to match the source regex for a type annotation (the literal
text at-type, then whitespace, then a braced nonempty group) anchored at
the start of the list, returning capture group 1. -/
def matchTypeAt (l : List Char) : Option (List Char) :=
  if leadsWith l ['@', 't', 'y', 'p', 'e'] then
    match dropWs (l.drop 5) with
    | '{' :: r =>
      let cap := r.takeWhile (fun c => c != '}')
      let rest := r.dropWhile (fun c => c != '}')
      if cap ≠ [] ∧ rest ≠ [] then some cap else none
    | _ => none
  else none

/-- First match of the type-annotation regex anywhere in the list,
scanning left to right as String.prototype.match does. -/
def scanType : List Char → Option (List Char)
  | [] => none
  | c :: cs =>
    match matchTypeAt (c :: cs) with
    | some cap => some cap
    | none => scanType cs

/-- description?.match(type-annotation-regex) yielding capture group 1. -/
def jsMatchTypeCapture : Option String → Option String
  | none => none
  | some s => (scanType s.data).map String.mk

/-- A doclet, with the node descriptor (meta.code) flattened into it.
Fields of the JavaScript object that may be undefined are Options;
codeType is meta.code.type, nodeType is meta.code.node.type, nodeKeyType
is meta.code.node.key.type, nodeStatic is meta.code.node.static === true,
nodeValueType is meta.code.node.value.type, and nodeFirstPropKeyName is
meta.code.node.properties[0].key.name. -/
structure Doclet where
  name : Option String := none
  longname : Option String := none
  memberof : Option String := none
  kind : Option String := none
  scope : Option String := none
  access : Option String := none
  undocumented : Bool := false
  description : Option String := none
  id : Option String := none
  codeType : Option String := none
  nodeType : Option String := none
  nodeKeyType : Option String := none
  nodeStatic : Bool := false
  nodeValueType : Option String := none
  nodeFirstPropKeyName : Option String := none
  deriving Repr, DecidableEq, Inhabited

/-- The event handed to symbolFound, flattened: code.* fields, the
astnode with its static flag, the astnode parent chain, the export
declaration under the parent, and the assignment left-hand side. -/
structure SymbolEvent where
  codeName : Option String := none
  codeType : Option String := none
  codeMemberof : Option String := none
  codeScope : Option String := none
  codeNodeKeyType : Option String := none
  codeNodeKeyIdName : Option String := none
  astnodeType : Option String := none
  astnodeStatic : Bool := false
  parentType : Option String := none
  declExists : Bool := false
  declIdExists : Bool := false
  declIdName : Option String := none
  parentParentType : Option String := none
  parentParentIdName : Option String := none
  leftType : Option String := none
  leftPropType : Option String := none
  leftPropIdName : Option String := none
  deriving Repr, DecidableEq, Inhabited

/-- symbolFound Phase 1: fix ES6 default export names during parsing. -/
def sfPhase1 (e : SymbolEvent) : SymbolEvent :=
  if e.codeName == some "module.exports"
      && (e.codeType == some "ClassDeclaration"
        || e.codeType == some "FunctionDeclaration"
        || e.codeType == some "ObjectExpression") then
    if e.parentType == some "ExportDefaultDeclaration" then
      -- the source reads e.astnode.parent.declaration.id?.name; an absent
      -- declaration raises there (see symbolFoundThrows)
      let exportName := if e.declExists then e.declIdName else none
      if jsTruthy exportName then {e with codeName := exportName}
      else if e.codeType == some "FunctionDeclaration" && !e.declIdExists then
        {e with codeName := some "anonymousFunction"}
      else if e.codeType == some "ObjectExpression" then
        {e with codeName := some "defaultExport"}
      else e
    else e
  else e

/-- The complete firing condition of symbolFound Phase 1: the rule
writes e.code.name exactly when this holds (and the declaration is
present; an absent one raises instead, see symbolFoundThrows). -/
def sfPhase1Guard (e : SymbolEvent) : Bool :=
  (e.codeName == some "module.exports"
    && (e.codeType == some "ClassDeclaration"
      || e.codeType == some "FunctionDeclaration"
      || e.codeType == some "ObjectExpression"))
  && (e.parentType == some "ExportDefaultDeclaration")
  && (jsTruthy (if e.declExists then e.declIdName else none)
    || (e.codeType == some "FunctionDeclaration" && !e.declIdExists)
    || e.codeType == some "ObjectExpression")

/-- symbolFound Phase 1.5: fix class member relationships during parsing. -/
def sfPhase15 (e : SymbolEvent) : SymbolEvent :=
  if e.codeType == some "MethodDefinition" && e.parentType == some "ClassBody" then
    if e.parentParentType == some "ClassDeclaration" && jsTruthy e.parentParentIdName then
      {e with codeMemberof := e.parentParentIdName, codeScope := some "instance"}
    else e
  else e

/-- The complete firing condition of symbolFound Phase 1.5. -/
def sfPhase15Guard (e : SymbolEvent) : Bool :=
  (e.codeType == some "MethodDefinition" && e.parentType == some "ClassBody")
    && (e.parentParentType == some "ClassDeclaration" && jsTruthy e.parentParentIdName)

/-- symbolFound Phase 1.6: fix static class properties parsing. -/
def sfPhase16 (e : SymbolEvent) : SymbolEvent :=
  if e.codeType == some "ClassProperty" && e.astnodeStatic then
    let e := {e with codeScope := some "static"}
    match e.codeMemberof with
    | some m =>
      if !(m == "") && jsIncludes m '#' then
        {e with codeMemberof := some (jsReplaceFirst m '#' '.')}
      else e
    | none => e
  else e

/-- The complete firing condition of symbolFound Phase 1.6: when it
holds the rule writes e.code.scope (and possibly e.code.memberof). -/
def sfPhase16Guard (e : SymbolEvent) : Bool :=
  e.codeType == some "ClassProperty" && e.astnodeStatic

/-- symbolFound Phase 2: recover names of native private methods. -/
def sfPhase2 (e : SymbolEvent) : SymbolEvent :=
  if e.codeType == some "MethodDefinition"
      && e.codeNodeKeyType == some "PrivateName"
      && jsTruthy e.codeNodeKeyIdName then
    {e with codeName := e.codeNodeKeyIdName}
  else e

/-- The complete firing condition of symbolFound Phase 2. -/
def sfPhase2Guard (e : SymbolEvent) : Bool :=
  e.codeType == some "MethodDefinition"
    && e.codeNodeKeyType == some "PrivateName"
    && jsTruthy e.codeNodeKeyIdName

/-- symbolFound Phase 3: recover names of assignments to private fields. -/
def sfPhase3 (e : SymbolEvent) : SymbolEvent :=
  if e.codeName == some "this."
      && e.astnodeType == some "AssignmentExpression"
      && e.leftType == some "MemberExpression"
      && e.leftPropType == some "PrivateName"
      && jsTruthy e.leftPropIdName then
    {e with codeName := e.leftPropIdName}
  else e

/-- The complete firing condition of symbolFound Phase 3. -/
def sfPhase3Guard (e : SymbolEvent) : Bool :=
  e.codeName == some "this."
    && e.astnodeType == some "AssignmentExpression"
    && e.leftType == some "MemberExpression"
    && e.leftPropType == some "PrivateName"
    && jsTruthy e.leftPropIdName

/-- The symbolFound handler: the four phases in source order. -/
def symbolFound (e : SymbolEvent) : SymbolEvent :=
  sfPhase3 (sfPhase2 (sfPhase16 (sfPhase15 (sfPhase1 e))))

/-- symbolFound raises a TypeError exactly when the default-export branch
dereferences e.astnode.parent.declaration while declaration is absent. -/
def symbolFoundThrows (e : SymbolEvent) : Bool :=
  e.codeName == some "module.exports"
    && (e.codeType == some "ClassDeclaration"
      || e.codeType == some "FunctionDeclaration"
      || e.codeType == some "ObjectExpression")
    && e.parentType == some "ExportDefaultDeclaration"
    && !e.declExists

/-- parseComplete Phase 1: names of undocumented ClassPrivateProperty
placeholders (a JavaScript Set; membership is all that is consumed). -/
def ppNames (ds : List Doclet) : List (Option String) :=
  ds.filterMap fun d =>
    if d.undocumented && d.codeType == some "ClassPrivateProperty" then some d.name
    else none

/-- Guard of the value-carrying private-property assignment rule. -/
def privatePropGuard (pp : List (Option String)) (d : Doclet) : Bool :=
  d.kind == some "member" && d.scope == some "inner"
    && d.name.isSome && pp.contains d.name

/-- parseComplete Phase 2, first rule: promote the value-carrying
assignment doclet of a private property. -/
def privatePropRule (pp : List (Option String)) (d : Doclet) : Doclet :=
  if privatePropGuard pp d then
    match d.name with
    | some n =>
      {d with name := some ("#" ++ n),
              longname := some (jsStr d.memberof ++ "#" ++ ("#" ++ n)),
              access := some "private",
              scope := some "instance"}
    | none => d
  else d

/-- Guard of the arrow-method reclassification rule. -/
def arrowGuard (d : Doclet) : Bool :=
  d.kind == some "member"
    && (d.codeType == some "ArrowFunctionExpression"
      || d.nodeValueType == some "ArrowFunctionExpression")

/-- parseComplete Phase 2: correct arrow methods by fixing the kind. -/
def arrowRule (d : Doclet) : Doclet :=
  if arrowGuard d then {d with kind := some "function"} else d

/-- Descriptor test for a native private method. -/
def isPrivateMethodB (d : Doclet) : Bool :=
  d.nodeType == some "MethodDefinition" && d.nodeKeyType == some "PrivateName"

/-- Descriptor test for a native private property. -/
def isPrivatePropertyB (d : Doclet) : Bool :=
  d.codeType == some "ClassPrivateProperty"
    || (d.nodeType == some "PropertyDefinition" && d.nodeKeyType == some "PrivateName")

/-- parseComplete Phase 2: common logic for private methods and
properties.  The source dereferences doclet.name unguarded; an undefined
name raises a TypeError there (see parseCompleteThrows). -/
def privateFixRule (d : Doclet) : Doclet :=
  if isPrivateMethodB d || isPrivatePropertyB d then
    match d.name with
    | none => d
    | some n =>
      let n2 := if jsStartsWith n "#" then n else "#" ++ n
      if !(jsTruthy d.longname) || d.longname == d.memberof then
        {d with name := some n2,
                longname := some (jsStr d.memberof ++ "#" ++ n2),
                access := some "private"}
      else
        {d with name := some n2, access := some "private"}
  else d

/-- Guard of Phase 2.1, the static class-property scope fix. -/
def staticPropGuard (d : Doclet) : Bool :=
  (d.codeType == some "ClassProperty" || d.codeType == some "MethodDefinition")
    && d.nodeStatic
    && (match d.memberof with
        | some m => !(m == "") && !(jsStartsWith m "module:")
        | none => false)

/-- parseComplete Phase 2.1: fix static class properties scope. -/
def staticPropRule (d : Doclet) : Doclet :=
  if staticPropGuard d then
    {d with scope := some "static",
            longname := rewriteSep d.longname,
            memberof := rewriteSep d.memberof}
  else d

/-- The currently-static test of Phase 2.2. -/
def isCurrentlyStaticB (d : Doclet) : Bool :=
  d.scope == some "static"
    || truthyIncludes d.longname '.'
    || truthyIncludes d.memberof '.'

/-- parseComplete Phase 2.2: preserve ES6 class mixin static members. -/
def es6StaticRule (d : Doclet) : Doclet :=
  if d.codeType == some "ClassProperty" || d.codeType == some "MethodDefinition" then
    if d.nodeStatic && isCurrentlyStaticB d then
      {d with scope := some "static",
              longname := rewriteSep d.longname,
              memberof := rewriteSep d.memberof}
    else d
  else d

/-- The complete firing condition of Phase 2.2: when it is false the
rule writes nothing. -/
def es6Guard (d : Doclet) : Bool :=
  (d.codeType == some "ClassProperty" || d.codeType == some "MethodDefinition")
    && (d.nodeStatic && isCurrentlyStaticB d)

/-- The whole Phase 2 body for a single doclet, rules in source order. -/
def phase2Step (pp : List (Option String)) (d : Doclet) : Doclet :=
  es6StaticRule (staticPropRule (privateFixRule (arrowRule (privatePropRule pp d))))

/-- Names attached to a static-flagged descriptor (Phase 2.9 step 1 of
parseComplete, and the identical collection in processingComplete). -/
def staticNames (ds : List Doclet) : List (Option String) :=
  ds.filterMap fun d => if d.nodeStatic then some d.name else none

/-- parseComplete Phase 2.9 step 2: apply static scope to all members
whose name was collected. -/
def phase29Step (statics : List (Option String)) (d : Doclet) : Doclet :=
  if statics.contains d.name then
    {d with scope := some "static",
            longname := rewriteSep d.longname,
            memberof := rewriteSep d.memberof}
  else d

/-- Guard of the default-export function branch of Phase 3. -/
def b1Guard (d : Doclet) : Bool :=
  d.kind == some "function" && d.name == some "exports" && d.memberof == some "module"

/-- Phase 3 branch 1: fix default export function names. -/
def b1Apply (ds : List Doclet) (d : Doclet) : Doclet :=
  if b1Guard d then
    match ds.find? (fun x =>
        x.kind == some "function" && !(x.name == some "exports")
          && x.scope == some "global") with
    | some f => {d with name := f.name, longname := f.name, memberof := none}
    | none => d
  else d

/-- Guard of the default-export object-literal branch of Phase 3. -/
def b2Guard (d : Doclet) : Bool :=
  d.kind == some "member" && d.name == some "exports" && d.memberof == some "module"
    && d.codeType == some "ObjectExpression"

/-- The fallback of the object-literal name resolution: node.properties
[0].key.name + "Config" under JavaScript string coercion (undefined
concatenates to "undefinedConfig", always truthy), then the generic
sentinel. -/
def fallbackName (d : Doclet) : String :=
  let b := jsStr d.nodeFirstPropKeyName ++ "Config"
  if !(b == "") then b else "defaultExport"

/-- Phase 3 branch 2: fix default export object literals. -/
def b2Apply (d : Doclet) : Doclet :=
  if b2Guard d then
    let objectName :=
      match (jsMatchTypeCapture d.description).map jsTrim with
      | some t => if !(t == "") then t else fallbackName d
      | none => fallbackName d
    {d with name := some objectName, longname := some objectName, memberof := none}
  else d

/-- Guard of the misattributed class-method branch of Phase 3. -/
def b3Guard (d : Doclet) : Bool :=
  d.kind == some "function" && d.scope == some "global"
    && d.nodeType == some "MethodDefinition"

/-- Phase 3 branch 3: fix class methods that got marked as global. -/
def b3Apply (ds : List Doclet) (d : Doclet) : Doclet :=
  if b3Guard d then
    match ds.find? (fun x => x.kind == some "class" && !(x.name == some "exports")) with
    | some c =>
      let ln := jsStr c.name ++ "#" ++ jsStr d.name
      {d with scope := some "instance", memberof := c.name,
              longname := some ln, id := some ln}
    | none => d
  else d

/-- The Phase 3 loop body for one doclet; the find calls search the
current (partially mutated) doclet list, passed in as ds. -/
def phase3Step (ds : List Doclet) (d : Doclet) : Doclet :=
  b3Apply ds (b2Apply (b1Apply ds d))

/-- The Phase 3 loop: index i walks the list while each step sees the
list as already mutated by earlier iterations, as the source does by
mutating the shared array in place. -/
def phase3Go : Nat → Nat → List Doclet → List Doclet
  | 0, _, ds => ds
  | fuel + 1, i, ds =>
    match ds[i]? with
    | some d => phase3Go fuel (i + 1) (ds.set i (phase3Step ds d))
    | none => ds

/-- parseComplete Phase 3. -/
def phase3 (ds : List Doclet) : List Doclet := phase3Go ds.length 0 ds

/-- The doclet list after parseComplete Phases 1 and 2. -/
def phase2Out (ds : List Doclet) : List Doclet :=
  ds.map (phase2Step (ppNames ds))

/-- The doclet list after parseComplete Phase 2.9. -/
def phase29Out (ds : List Doclet) : List Doclet :=
  (phase2Out ds).map (phase29Step (staticNames (phase2Out ds)))

/-- The parseComplete handler: Phases 1, 2, 2.9 and 3 in source order. -/
def parseComplete (ds : List Doclet) : List Doclet :=
  phase3 (phase29Out ds)

/-- parseComplete raises a TypeError exactly when the private-member
common logic reaches doclet.name.startsWith with an undefined name. -/
def parseCompleteThrows (ds : List Doclet) : Bool :=
  ds.any fun d => (isPrivateMethodB d || isPrivatePropertyB d) && d.name == none

/-- The processingComplete loop body for one doclet.  The source
dereferences doclet.name.startsWith inside the static branch; an
undefined name raises there (see processingCompleteThrows). -/
def pcStep (statics : List (Option String)) (d : Doclet) : Doclet :=
  if statics.contains d.name then
    match d.name with
    | some n =>
      if jsStartsWith n "#" && !(jsTruthy d.access) then
        {d with scope := some "static", access := some "private"}
      else
        {d with scope := some "static"}
    | none => {d with scope := some "static"}
  else d

/-- The processingComplete handler. -/
def processingComplete (ds : List Doclet) : List Doclet :=
  ds.map (pcStep (staticNames ds))

/-- processingComplete raises a TypeError exactly when a doclet whose
(undefined) name is in the static name set is reached. -/
def processingCompleteThrows (ds : List Doclet) : Bool :=
  ds.any fun d => d.name == none && (staticNames ds).contains d.name

/-! Basic facts about the string helpers. -/

theorem strData_append (s t : String) : (s ++ t).data = s.data ++ t.data := rfl

theorem jsIncludes_iff (s : String) (c : Char) : jsIncludes s c = true ↔ c ∈ s.data := by
  simp [jsIncludes, List.contains, List.elem_iff]

theorem jsIncludes_false_iff (s : String) (c : Char) :
    jsIncludes s c = false ↔ c ∉ s.data := by
  rw [← Bool.not_eq_true, jsIncludes_iff]

theorem replFirstL_append_free (l1 l2 : List Char) (h : '#' ∉ l1) :
    replFirstL (l1 ++ '#' :: l2) '#' '.' = l1 ++ '.' :: l2 := by
  induction l1 with
  | nil => simp [replFirstL]
  | cons a as ih =>
    have ha : a ≠ '#' := fun hh => h (hh ▸ List.mem_cons_self a as)
    have has : '#' ∉ as := fun hh => h (List.mem_cons_of_mem a hh)
    show replFirstL (a :: (as ++ '#' :: l2)) '#' '.' = a :: (as ++ '.' :: l2)
    unfold replFirstL
    rw [if_neg (by simpa using ha)]
    exact congrArg (a :: ·) (ih has)

theorem jsReplaceFirst_sep (m n : String)
    (hm : jsIncludes m '#' = false) :
    jsReplaceFirst (m ++ "#" ++ n) '#' '.' = m ++ "." ++ n := by
  apply String.ext
  have hd : (m ++ "#" ++ n).data = m.data ++ '#' :: n.data := by
    rw [strData_append, strData_append, List.append_assoc]
    rfl
  have hm' : '#' ∉ m.data := (jsIncludes_false_iff m '#').mp hm
  show replFirstL (m ++ "#" ++ n).data '#' '.' = (m ++ "." ++ n).data
  rw [hd, replFirstL_append_free _ _ hm', strData_append, strData_append,
    List.append_assoc]
  rfl

theorem jsIncludes_append3 (m n : String) (c : Char) (s : String)
    (hm : jsIncludes m c = false) (hs : jsIncludes s c = false)
    (hsep : c ∉ n.data) :
    jsIncludes (m ++ n ++ s) c = false := by
  rw [jsIncludes_false_iff] at hm hs ⊢
  rw [strData_append, strData_append]
  intro hmem
  rcases List.mem_append.mp hmem with h1 | h2
  · rcases List.mem_append.mp h1 with h3 | h4
    · exact hm h3
    · exact hsep h4
  · exact hs h2

theorem append_sep_ne_self (m sep x : String) (hs : sep.data ≠ []) :
    (m ++ sep ++ x) ≠ m := by
  intro h
  have hlen := congrArg (fun s => s.data.length) h
  simp only [strData_append, List.length_append] at hlen
  have hz : sep.data.length ≠ 0 := fun h0 => hs (List.length_eq_zero.mp h0)
  omega

theorem hash_append_ne (n : String) (t : String) (c : Char)
    (hc : c ≠ '#') (ht : t.data = c :: (t.data.tail)) : ("#" ++ n) ≠ t := by
  intro h
  have hd := congrArg String.data h
  rw [strData_append, ht] at hd
  have : '#' = c := by
    have : ('#' :: n.data) = c :: t.data.tail := hd
    exact (List.cons.injEq _ _ _ _).mp this |>.1
  exact hc this.symm

theorem hash_append_ne_exports (n : String) : ("#" ++ n) ≠ "exports" :=
  hash_append_ne n "exports" 'e' (by decide) rfl

theorem append_nonempty (m x y : String) (c : Char)
    (hx : x.data = c :: x.data.tail) : ((m ++ x ++ y) == "") = false := by
  rw [beq_eq_false_iff_ne]
  intro h
  have hd := congrArg (fun s => s.data.length) h
  simp only [strData_append] at hd
  rw [hx] at hd
  simp only [List.length_append, List.length_cons, List.length_nil] at hd
  omega

/-! The Phase 3 loop machinery. -/

theorem phase3Go_length (fuel : Nat) :
    ∀ (i : Nat) (ds : List Doclet), (phase3Go fuel i ds).length = ds.length := by
  induction fuel with
  | zero => intro i ds; rfl
  | succ n ih =>
    intro i ds
    unfold phase3Go
    cases h : ds[i]? with
    | none => rfl
    | some d => rw [ih]; exact List.length_set ..

theorem phase3Go_pres (P : Doclet → Prop)
    (hstep : ∀ s d, P d → P (phase3Step s d)) (fuel : Nat) :
    ∀ (i : Nat) (ds : List Doclet) (j : Nat) (d : Doclet),
      ds[j]? = some d → P d →
      ∃ e, (phase3Go fuel i ds)[j]? = some e ∧ P e := by
  induction fuel with
  | zero => intro i ds j d hj hd; exact ⟨d, hj, hd⟩
  | succ n ih =>
    intro i ds j d hj hd
    unfold phase3Go
    cases hi : ds[i]? with
    | none => exact ⟨d, hj, hd⟩
    | some di =>
      by_cases hij : i = j
      · subst hij
        have hdi : di = d := by rw [hi] at hj; exact Option.some.inj hj
        subst hdi
        have hlt : i < ds.length := (List.getElem?_eq_some.mp hj).1
        refine ih (i + 1) _ i (phase3Step ds di) ?_ (hstep ds di hd)
        simp [List.getElem?_set, hlt]
      · refine ih (i + 1) _ j d ?_ hd
        simpa [List.getElem?_set, hij] using hj

/-! Frame facts: which fields each rule leaves untouched. -/

theorem privatePropRule_undoc (pp : List (Option String)) (d : Doclet) :
    (privatePropRule pp d).undocumented = d.undocumented := by
  unfold privatePropRule
  repeat' split
  all_goals rfl

theorem arrowRule_undoc (d : Doclet) :
    (arrowRule d).undocumented = d.undocumented := by
  unfold arrowRule
  repeat' split
  all_goals rfl

theorem privateFixRule_undoc (d : Doclet) :
    (privateFixRule d).undocumented = d.undocumented := by
  unfold privateFixRule
  repeat' split
  all_goals rfl

theorem staticPropRule_undoc (d : Doclet) :
    (staticPropRule d).undocumented = d.undocumented := by
  unfold staticPropRule
  repeat' split
  all_goals rfl

theorem es6StaticRule_undoc (d : Doclet) :
    (es6StaticRule d).undocumented = d.undocumented := by
  unfold es6StaticRule
  repeat' split
  all_goals rfl

theorem phase2Step_undoc (pp : List (Option String)) (d : Doclet) :
    (phase2Step pp d).undocumented = d.undocumented := by
  unfold phase2Step
  rw [es6StaticRule_undoc, staticPropRule_undoc, privateFixRule_undoc,
    arrowRule_undoc, privatePropRule_undoc]

theorem phase29Step_undoc (statics : List (Option String)) (d : Doclet) :
    (phase29Step statics d).undocumented = d.undocumented := by
  unfold phase29Step
  repeat' split
  all_goals rfl

theorem b1Apply_undoc (ds : List Doclet) (d : Doclet) :
    (b1Apply ds d).undocumented = d.undocumented := by
  unfold b1Apply
  repeat' split
  all_goals rfl

theorem b2Apply_undoc (d : Doclet) :
    (b2Apply d).undocumented = d.undocumented := by
  unfold b2Apply
  repeat' split
  all_goals rfl

theorem b3Apply_undoc (ds : List Doclet) (d : Doclet) :
    (b3Apply ds d).undocumented = d.undocumented := by
  unfold b3Apply
  repeat' split
  all_goals rfl

theorem phase3Step_undoc (ds : List Doclet) (d : Doclet) :
    (phase3Step ds d).undocumented = d.undocumented := by
  unfold phase3Step
  rw [b3Apply_undoc, b2Apply_undoc, b1Apply_undoc]

theorem pcStep_undoc (statics : List (Option String)) (d : Doclet) :
    (pcStep statics d).undocumented = d.undocumented := by
  unfold pcStep
  repeat' split
  all_goals rfl

theorem privatePropRule_nodeStatic (pp : List (Option String)) (d : Doclet) :
    (privatePropRule pp d).nodeStatic = d.nodeStatic := by
  unfold privatePropRule
  repeat' split
  all_goals rfl

theorem arrowRule_nodeStatic (d : Doclet) :
    (arrowRule d).nodeStatic = d.nodeStatic := by
  unfold arrowRule
  repeat' split
  all_goals rfl

theorem privateFixRule_nodeStatic (d : Doclet) :
    (privateFixRule d).nodeStatic = d.nodeStatic := by
  unfold privateFixRule
  repeat' split
  all_goals rfl

theorem staticPropRule_nodeStatic (d : Doclet) :
    (staticPropRule d).nodeStatic = d.nodeStatic := by
  unfold staticPropRule
  repeat' split
  all_goals rfl

theorem es6StaticRule_nodeStatic (d : Doclet) :
    (es6StaticRule d).nodeStatic = d.nodeStatic := by
  unfold es6StaticRule
  repeat' split
  all_goals rfl

theorem phase2Step_nodeStatic (pp : List (Option String)) (d : Doclet) :
    (phase2Step pp d).nodeStatic = d.nodeStatic := by
  unfold phase2Step
  rw [es6StaticRule_nodeStatic, staticPropRule_nodeStatic, privateFixRule_nodeStatic,
    arrowRule_nodeStatic, privatePropRule_nodeStatic]

theorem pcStep_name (statics : List (Option String)) (d : Doclet) :
    (pcStep statics d).name = d.name := by
  unfold pcStep
  repeat' split
  all_goals rfl

theorem pcStep_longname (statics : List (Option String)) (d : Doclet) :
    (pcStep statics d).longname = d.longname := by
  unfold pcStep
  repeat' split
  all_goals rfl

theorem pcStep_memberof (statics : List (Option String)) (d : Doclet) :
    (pcStep statics d).memberof = d.memberof := by
  unfold pcStep
  repeat' split
  all_goals rfl

theorem pcStep_nodeStatic (statics : List (Option String)) (d : Doclet) :
    (pcStep statics d).nodeStatic = d.nodeStatic := by
  unfold pcStep
  repeat' split
  all_goals rfl

/-! Facts about the collected static-name set. -/

theorem staticNames_map (f : Doclet → Doclet)
    (h1 : ∀ d, (f d).nodeStatic = d.nodeStatic) (h2 : ∀ d, (f d).name = d.name)
    (l : List Doclet) : staticNames (l.map f) = staticNames l := by
  induction l with
  | nil => rfl
  | cons a as ih =>
    unfold staticNames
    simp only [List.map_cons, List.filterMap_cons, h1 a, h2 a]
    unfold staticNames at ih
    split <;> rw [ih]

theorem staticNames_nil_of (l : List Doclet) (h : ∀ d ∈ l, d.nodeStatic = false) :
    staticNames l = [] := by
  induction l with
  | nil => rfl
  | cons a as ih =>
    unfold staticNames
    simp only [List.filterMap_cons, h a (List.mem_cons_self a as)]
    unfold staticNames at ih
    simp only [Bool.false_eq_true, if_false]
    exact ih fun d hd => h d (List.mem_cons_of_mem a hd)

theorem staticNames_contains_of_mem (l : List Doclet) (d : Doclet) (hd : d ∈ l)
    (hs : d.nodeStatic = true) : (staticNames l).contains d.name = true := by
  rw [List.elem_iff]
  unfold staticNames
  exact List.mem_filterMap.mpr ⟨d, hd, by simp [hs]⟩

/-- Claim C9: no pass ever writes the undocumented field of any doclet:
its value after the collection-complete pass and after the
processing-complete pass equals its input value at every index, so a
placeholder doclet stays hidden even when its other fields are
corrected. -/
theorem C9_undocumented_frame (ds : List Doclet) (i : Nat) (d : Doclet)
    (hget : ds[i]? = some d) :
    (∃ e, (parseComplete ds)[i]? = some e ∧ e.undocumented = d.undocumented)
    ∧ ∃ e, (processingComplete ds)[i]? = some e ∧ e.undocumented = d.undocumented := by
  constructor
  · have h2 : (phase2Out ds)[i]? = some (phase2Step (ppNames ds) d) := by
      unfold phase2Out
      rw [List.getElem?_map, hget]
      rfl
    have h29 : (phase29Out ds)[i]? =
        some (phase29Step (staticNames (phase2Out ds)) (phase2Step (ppNames ds) d)) := by
      unfold phase29Out
      rw [List.getElem?_map, h2]
      rfl
    have hmid : (phase29Step (staticNames (phase2Out ds))
        (phase2Step (ppNames ds) d)).undocumented = d.undocumented := by
      rw [phase29Step_undoc, phase2Step_undoc]
    exact phase3Go_pres (fun x => x.undocumented = d.undocumented)
      (fun s x hx => by
        show (phase3Step s x).undocumented = d.undocumented
        rw [phase3Step_undoc]
        exact hx) _ 0 _ i _ h29 hmid
  · refine ⟨pcStep (staticNames ds) d, ?_, pcStep_undoc _ d⟩
    unfold processingComplete
    rw [List.getElem?_map, hget]
    rfl

def c9w : Doclet :=
  { name := some "p", kind := some "member", undocumented := true,
    codeType := some "ClassPrivateProperty" }

/-- Witness for C9 at a concrete placeholder doclet. -/
theorem C9_undocumented_frame_witness :
    (∃ e, (parseComplete [c9w])[0]? = some e ∧ e.undocumented = c9w.undocumented)
    ∧ ∃ e, (processingComplete [c9w])[0]? = some e ∧ e.undocumented = c9w.undocumented :=
  C9_undocumented_frame [c9w] 0 c9w rfl

def c5cex : Doclet :=
  { name := some "x", longname := some "A#x", memberof := some "A",
    scope := some "instance", access := some "public", nodeStatic := true }

/-- Claim C5 counterexample: a doclet whose name is in the static name
set and whose longname still carries the instance separator is left with
that separator by processingComplete; only its scope is forced to
static, so the claimed separator rewrite does not happen. -/
theorem C5_counterexample :
    (staticNames [c5cex]).contains c5cex.name = true
    ∧ processingComplete [c5cex] = [{ c5cex with scope := some "static" }]
    ∧ ((processingComplete [c5cex]).headD default).longname = some "A#x"
    ∧ jsIncludes "A#x" '#' = true := by decide

/-- Claim C5 (amended): the processing-complete handler repeats only the
scope part of the name-based static propagation: doclets whose name is
in the static name set get scope forced to static (plus the private
backfill), doclets outside the set are untouched, and longname and
memberof are never rewritten. -/
theorem C5_processing_scope_only (ds : List Doclet) (i : Nat) (d : Doclet)
    (hget : ds[i]? = some d)
    (hthrow : processingCompleteThrows ds = false) :
    ∃ e, (processingComplete ds)[i]? = some e ∧
      e.longname = d.longname ∧ e.memberof = d.memberof ∧
      ((staticNames ds).contains d.name = true → e.scope = some "static") ∧
      ((staticNames ds).contains d.name = false → e = d) := by
  refine ⟨pcStep (staticNames ds) d, ?_, pcStep_longname _ d, pcStep_memberof _ d, ?_, ?_⟩
  · unfold processingComplete
    rw [List.getElem?_map, hget]
    rfl
  · intro hin
    unfold pcStep
    rw [hin]
    simp only [if_true]
    split
    · split <;> rfl
    · rfl
  · intro hout
    unfold pcStep
    rw [hout]
    simp

def c5w : Doclet :=
  { name := some "s", longname := some "B#s", memberof := some "B",
    scope := some "instance", nodeStatic := true }

/-- Witness for the amended C5 at a concrete static-flagged doclet. -/
theorem C5_processing_scope_only_witness :
    ∃ e, (processingComplete [c5w])[0]? = some e ∧
      e.longname = c5w.longname ∧ e.memberof = c5w.memberof ∧
      ((staticNames [c5w]).contains c5w.name = true → e.scope = some "static") ∧
      ((staticNames [c5w]).contains c5w.name = false → e = c5w) :=
  C5_processing_scope_only [c5w] 0 c5w rfl (by decide)

def c6cex : Doclet := { name := some "#x" }

/-- Claim C6 counterexample: a doclet whose name carries the private
sigil and whose access is unset is NOT backfilled by processingComplete
when its name is outside the static name set, though the claim demands
the backfill regardless of any other property. -/
theorem C6_counterexample :
    jsStartsWith (jsStr c6cex.name) "#" = true ∧ c6cex.access = none
    ∧ processingComplete [c6cex] = [c6cex]
    ∧ ((processingComplete [c6cex]).headD default).access = none
    ∧ (none : Option String) ≠ some "private" := by decide

/-- Claim C6 (amended): in the processing-complete pass the private
backfill happens only inside the static-name branch: every doclet whose
name is in the static name set, carries the sigil, and has falsy access
receives access = private. -/
theorem C6_sigil_backfill (ds : List Doclet) (i : Nat) (d : Doclet) (nm : String)
    (hget : ds[i]? = some d)
    (hthrow : processingCompleteThrows ds = false)
    (hin : (staticNames ds).contains d.name = true)
    (hn : d.name = some nm)
    (hsig : jsStartsWith nm "#" = true)
    (hacc : jsTruthy d.access = false) :
    ∃ e, (processingComplete ds)[i]? = some e ∧ e.access = some "private" := by
  refine ⟨pcStep (staticNames ds) d, ?_, ?_⟩
  · unfold processingComplete
    rw [List.getElem?_map, hget]
    rfl
  · unfold pcStep
    rw [hin, hn]
    simp [hsig, hacc]

def c6w : Doclet := { name := some "#y", nodeStatic := true }

/-- Witness for the amended C6 at a concrete sigil-named static doclet. -/
theorem C6_sigil_backfill_witness :
    ∃ e, (processingComplete [c6w])[0]? = some e ∧ e.access = some "private" :=
  C6_sigil_backfill [c6w] 0 c6w "#y" rfl (by decide) (by decide) rfl (by decide) (by decide)

theorem b1Apply_scope (ds : List Doclet) (d : Doclet) :
    (b1Apply ds d).scope = d.scope := by
  unfold b1Apply
  repeat' split
  all_goals rfl

theorem b2Apply_scope (d : Doclet) : (b2Apply d).scope = d.scope := by
  unfold b2Apply
  repeat' split
  all_goals rfl

theorem b3Apply_scope_static (ds : List Doclet) (d : Doclet)
    (h : d.scope = some "static") : (b3Apply ds d).scope = some "static" := by
  have hg : b3Guard d = false := by simp [b3Guard, h]
  unfold b3Apply
  rw [hg]
  simpa using h

theorem phase3Step_scope_static (s : List Doclet) (d : Doclet)
    (h : d.scope = some "static") : (phase3Step s d).scope = some "static" := by
  unfold phase3Step
  exact b3Apply_scope_static _ _ (by rw [b2Apply_scope, b1Apply_scope]; exact h)

theorem phase29Step_scope_of_contains (statics : List (Option String)) (d : Doclet)
    (hin : statics.contains d.name = true) :
    (phase29Step statics d).scope = some "static" := by
  unfold phase29Step
  rw [hin]
  rfl

theorem pcStep_scope_of_contains (statics : List (Option String)) (d : Doclet)
    (hin : statics.contains d.name = true) :
    (pcStep statics d).scope = some "static" := by
  unfold pcStep
  rw [hin]
  simp only [if_true]
  split
  · split <;> rfl
  · rfl

def c3d1 : Doclet :=
  { kind := some "member", name := some "exports", memberof := some "module",
    codeType := some "ObjectExpression", description := some "@type {x}",
    scope := some "inner" }

def c3d2 : Doclet :=
  { name := some "x", nodeStatic := true, kind := some "member",
    scope := some "instance", codeType := some "ClassProperty",
    memberof := some "C", longname := some "C#x" }

/-- Claim C3 counterexample: after the collection-complete pass, the
default-export resolver has renamed the object-literal doclet to a name
that belongs to a static-flagged descriptor, yet its scope is still
inner, so not every doclet whose name is in the static name set ends at
scope static after that pass. -/
theorem C3_counterexample :
    parseCompleteThrows [c3d1, c3d2] = false
    ∧ (staticNames (parseComplete [c3d1, c3d2])).contains
        ((parseComplete [c3d1, c3d2]).headD default).name = true
    ∧ ((parseComplete [c3d1, c3d2]).headD default).scope = some "inner"
    ∧ (some "inner" : Option String) ≠ some "static" := by decide

/-- Claim C3 (amended): name-based static propagation holds at both
checkpoints in this form: after the collection-complete pass, every
doclet whose name AS OF THE STATIC-PROPAGATION SUB-PASS is in the set
collected there has scope static (the default-export resolver may later
rename a doclet into the set without restamping it); and after the
processing-complete pass every doclet whose name is in the static name
set of the final record set has scope static, unconditionally. -/
theorem C3_static_name_propagation :
    (∀ (ds : List Doclet) (i : Nat) (d2 : Doclet),
      parseCompleteThrows ds = false →
      (phase2Out ds)[i]? = some d2 →
      (staticNames (phase2Out ds)).contains d2.name = true →
      ∃ e, (parseComplete ds)[i]? = some e ∧ e.scope = some "static")
    ∧ (∀ (es : List Doclet) (j : Nat) (e : Doclet),
      processingCompleteThrows es = false →
      (processingComplete es)[j]? = some e →
      (staticNames (processingComplete es)).contains e.name = true →
      e.scope = some "static") := by
  constructor
  · intro ds i d2 hthrow h2 hin
    have h29 : (phase29Out ds)[i]? =
        some (phase29Step (staticNames (phase2Out ds)) d2) := by
      unfold phase29Out
      rw [List.getElem?_map, h2]
      rfl
    exact phase3Go_pres (fun x => x.scope = some "static")
      (fun s x hx => by
        show (phase3Step s x).scope = some "static"
        exact phase3Step_scope_static s x hx) _ 0 _ i _ h29
      (phase29Step_scope_of_contains _ d2 hin)
  · intro es j e hthrow hj hin
    unfold processingComplete at hj
    rw [List.getElem?_map] at hj
    obtain ⟨d0, hd0, he⟩ := Option.map_eq_some'.mp hj
    have hnames : staticNames (processingComplete es) = staticNames es := by
      unfold processingComplete
      exact staticNames_map _ (pcStep_nodeStatic _) (pcStep_name _) es
    have hename : e.name = d0.name := by rw [← he, pcStep_name]
    rw [hnames, hename] at hin
    rw [← he]
    exact pcStep_scope_of_contains _ d0 hin

def c3w : Doclet := { name := some "m", nodeStatic := true }

def c3w2 : Doclet := { name := some "q", nodeStatic := true }

/-- Witness for the amended C3 at concrete static-flagged doclets. -/
theorem C3_static_name_propagation_witness :
    (∃ e, (parseComplete [c3w])[0]? = some e ∧ e.scope = some "static")
    ∧ ((processingComplete [c3w2]).headD default).scope = some "static" :=
  ⟨C3_static_name_propagation.1 [c3w] 0 c3w (by decide) (by decide) (by decide),
   C3_static_name_propagation.2 [c3w2] 0 ((processingComplete [c3w2]).headD default)
     (by decide) (by decide) (by decide)⟩

theorem jsIncludes_mid (m n : String) : jsIncludes (m ++ "#" ++ n) '#' = true := by
  rw [jsIncludes_iff, strData_append, strData_append]
  exact List.mem_append.mpr (Or.inl (List.mem_append.mpr (Or.inr (by simp))))

theorem rewriteSep_sep (m n : String) (hm : jsIncludes m '#' = false) :
    rewriteSep (some (m ++ "#" ++ n)) = some (m ++ "." ++ n) := by
  show (if (!(m ++ "#" ++ n == "") && jsIncludes (m ++ "#" ++ n) '#') = true
      then some (jsReplaceFirst (m ++ "#" ++ n) '#' '.')
      else some (m ++ "#" ++ n)) = some (m ++ "." ++ n)
  rw [append_nonempty m "#" n '#' rfl, jsIncludes_mid]
  simp only [Bool.not_false, Bool.and_true, if_true]
  exact congrArg some (jsReplaceFirst_sep m n hm)

theorem rewriteSep_free (s : String) (h : jsIncludes s '#' = false) :
    rewriteSep (some s) = some s := by
  show (if (!(s == "") && jsIncludes s '#') = true
      then some (jsReplaceFirst s '#' '.') else some s) = some s
  rw [h]
  simp

theorem arrowRule_name (d : Doclet) : (arrowRule d).name = d.name := by
  unfold arrowRule
  split <;> rfl

theorem arrowRule_longname (d : Doclet) : (arrowRule d).longname = d.longname := by
  unfold arrowRule
  split <;> rfl

theorem arrowRule_memberof (d : Doclet) : (arrowRule d).memberof = d.memberof := by
  unfold arrowRule
  split <;> rfl

theorem arrowRule_scope (d : Doclet) : (arrowRule d).scope = d.scope := by
  unfold arrowRule
  split <;> rfl

theorem arrowRule_access (d : Doclet) : (arrowRule d).access = d.access := by
  unfold arrowRule
  split <;> rfl

theorem arrowRule_codeType (d : Doclet) : (arrowRule d).codeType = d.codeType := by
  unfold arrowRule
  split <;> rfl

theorem arrowRule_nodeType (d : Doclet) : (arrowRule d).nodeType = d.nodeType := by
  unfold arrowRule
  split <;> rfl

theorem arrowRule_nodeKeyType (d : Doclet) : (arrowRule d).nodeKeyType = d.nodeKeyType := by
  unfold arrowRule
  split <;> rfl

theorem b1Apply_id (ds : List Doclet) (d : Doclet)
    (h : (d.name == some "exports") = false) : b1Apply ds d = d := by
  unfold b1Apply b1Guard
  rw [h]
  simp

theorem b2Apply_id (d : Doclet)
    (h : (d.name == some "exports") = false) : b2Apply d = d := by
  unfold b2Apply b2Guard
  rw [h]
  simp

theorem b3Apply_id (ds : List Doclet) (d : Doclet)
    (h : (d.scope == some "global") = false) : b3Apply ds d = d := by
  unfold b3Apply b3Guard
  rw [h]
  simp

theorem phase3Step_keeps (s : List Doclet) (d : Doclet)
    (hname : (d.name == some "exports") = false)
    (hscope : (d.scope == some "global") = false) : phase3Step s d = d := by
  unfold phase3Step
  rw [b1Apply_id s d hname, b2Apply_id d hname, b3Apply_id s d hscope]

theorem es6StaticRule_nofire_static (E : Doclet)
    (hct : E.codeType = some "ClassProperty")
    (hst : E.nodeStatic = true)
    (hsc : E.scope = some "static")
    (hlo : rewriteSep E.longname = E.longname)
    (hmo : rewriteSep E.memberof = E.memberof) :
    es6StaticRule E = E := by
  cases E with
  | mk f1 f2 f3 f4 f5 f6 f7 f8 f9 f10 f11 f12 f13 f14 f15 =>
    simp only at hct hst hsc hlo hmo
    subst hct hst hsc
    unfold es6StaticRule isCurrentlyStaticB
    simp [hlo, hmo]

theorem fixStaticChain (D : Doclet) (m nm : String)
    (hct : D.codeType = some "ClassProperty")
    (hst : D.nodeStatic = true)
    (hmo : D.memberof = some m)
    (hm1 : (m == "") = false)
    (hm2 : jsStartsWith m "module:" = false)
    (hm3 : jsIncludes m '#' = false)
    (hname : D.name = some nm)
    (hn1 : jsIncludes nm '#' = false)
    (hkey : (D.nodeKeyType == some "PrivateName") = false)
    (hln : D.longname = some (m ++ "#" ++ nm)) :
    es6StaticRule (staticPropRule (privateFixRule D)) =
      { D with
          scope := some "static",
          longname := some (m ++ "." ++ nm),
          memberof := some m } := by
  have hdot : jsIncludes (m ++ "." ++ nm) '#' = false :=
    jsIncludes_append3 m "." '#' nm hm3 hn1 (by decide)
  have hfix : privateFixRule D = D := by
    unfold privateFixRule isPrivateMethodB isPrivatePropertyB
    rw [hkey, hct]
    simp
  rw [hfix]
  have hguard : staticPropGuard D = true := by
    unfold staticPropGuard
    rw [hct, hst, hmo]
    simp [hm1, hm2]
  have hstat : staticPropRule D =
      { D with
          scope := some "static",
          longname := some (m ++ "." ++ nm),
          memberof := some m } := by
    unfold staticPropRule
    rw [hguard, hln, hmo, rewriteSep_sep m nm hm3, rewriteSep_free m hm3]
    simp
  rw [hstat]
  exact es6StaticRule_nofire_static _ hct hst rfl
    (rewriteSep_free (m ++ "." ++ nm) hdot) (rewriteSep_free m hm3)

/-- Claim C2: a doclet of a static class property (descriptor node
category ClassProperty with a true static flag) whose owner is not the
module namespace and whose fields reference the owning entity in the
usual well-formed way (owner and bare name free of separator characters,
longname of the shape owner-instance-separator-name) ends the
collection-complete pass with scope static and with longname and
memberof using the static separator and containing no instance
separator. -/
theorem C2_static_class_property (ds : List Doclet) (i : Nat) (d : Doclet)
    (m nm : String)
    (hget : ds[i]? = some d)
    (hthrow : parseCompleteThrows ds = false)
    (hct : d.codeType = some "ClassProperty")
    (hst : d.nodeStatic = true)
    (hmo : d.memberof = some m)
    (hm1 : (m == "") = false)
    (hm2 : jsStartsWith m "module:" = false)
    (hm3 : jsIncludes m '#' = false)
    (hname : d.name = some nm)
    (hn1 : jsIncludes nm '#' = false)
    (hn2 : nm ≠ "exports")
    (hsc : d.scope ≠ some "inner")
    (hkey : d.nodeKeyType ≠ some "PrivateName")
    (hln : d.longname = some (m ++ "#" ++ nm)) :
    ∃ e, (parseComplete ds)[i]? = some e ∧
      e.scope = some "static" ∧
      e.longname = some (m ++ "." ++ nm) ∧
      e.memberof = some m ∧
      jsIncludes (m ++ "." ++ nm) '#' = false ∧
      jsIncludes m '#' = false := by
  have hdot : jsIncludes (m ++ "." ++ nm) '#' = false :=
    jsIncludes_append3 m "." '#' nm hm3 hn1 (by decide)
  have g1 : privatePropRule (ppNames ds) d = d := by
    unfold privatePropRule privatePropGuard
    rw [beq_eq_false_iff_ne.mpr hsc]
    simp
  have hchain := fixStaticChain (arrowRule d) m nm
    ((arrowRule_codeType d).trans hct)
    ((arrowRule_nodeStatic d).trans hst)
    ((arrowRule_memberof d).trans hmo)
    hm1 hm2 hm3
    ((arrowRule_name d).trans hname)
    hn1
    (by rw [arrowRule_nodeKeyType]; exact beq_eq_false_iff_ne.mpr hkey)
    ((arrowRule_longname d).trans hln)
  have hstep : phase2Step (ppNames ds) d =
      { arrowRule d with
          scope := some "static",
          longname := some (m ++ "." ++ nm),
          memberof := some m } := by
    unfold phase2Step
    rw [g1, hchain]
  have h2 : (phase2Out ds)[i]? =
      some { arrowRule d with
              scope := some "static",
              longname := some (m ++ "." ++ nm),
              memberof := some m } := by
    unfold phase2Out
    rw [List.getElem?_map, hget]
    simpa using hstep
  have hmem := List.getElem?_mem h2
  have hsn : (staticNames (phase2Out ds)).contains
      ({ arrowRule d with
          scope := some "static",
          longname := some (m ++ "." ++ nm),
          memberof := some m } : Doclet).name = true :=
    staticNames_contains_of_mem _ _ hmem ((arrowRule_nodeStatic d).trans hst)
  have h29v : phase29Step (staticNames (phase2Out ds))
      { arrowRule d with
          scope := some "static",
          longname := some (m ++ "." ++ nm),
          memberof := some m } =
      { arrowRule d with
          scope := some "static",
          longname := some (m ++ "." ++ nm),
          memberof := some m } := by
    unfold phase29Step
    rw [hsn]
    simp only [if_true]
    have e1 : rewriteSep (some (m ++ "." ++ nm)) = some (m ++ "." ++ nm) :=
      rewriteSep_free _ hdot
    have e2 : rewriteSep (some m) = some m := rewriteSep_free m hm3
    show ({ arrowRule d with
        scope := some "static",
        longname := rewriteSep (some (m ++ "." ++ nm)),
        memberof := rewriteSep (some m) } : Doclet) = _
    rw [e1, e2]
  have h29 : (phase29Out ds)[i]? =
      some { arrowRule d with
              scope := some "static",
              longname := some (m ++ "." ++ nm),
              memberof := some m } := by
    unfold phase29Out
    rw [List.getElem?_map, h2]
    simpa using h29v
  have hstep3 : ∀ (s : List Doclet) (x : Doclet),
      (x.scope = some "static" ∧ x.name = some nm ∧
        x.longname = some (m ++ "." ++ nm) ∧ x.memberof = some m) →
      ((phase3Step s x).scope = some "static" ∧ (phase3Step s x).name = some nm ∧
        (phase3Step s x).longname = some (m ++ "." ++ nm) ∧
        (phase3Step s x).memberof = some m) := by
    intro s x hx
    obtain ⟨h1, h2', h3, h4⟩ := hx
    have hne : (x.name == some "exports") = false := by
      rw [h2']
      exact beq_eq_false_iff_ne.mpr fun hh => hn2 (Option.some.inj hh)
    have hgl : (x.scope == some "global") = false := by
      rw [h1]
      decide
    rw [phase3Step_keeps s x hne hgl]
    exact ⟨h1, h2', h3, h4⟩
  obtain ⟨e, he, hP⟩ := phase3Go_pres
    (fun x => x.scope = some "static" ∧ x.name = some nm ∧
      x.longname = some (m ++ "." ++ nm) ∧ x.memberof = some m)
    hstep3 (phase29Out ds).length 0 (phase29Out ds) i _ h29
    ⟨rfl, (arrowRule_name d).trans hname, rfl, rfl⟩
  exact ⟨e, he, hP.1, hP.2.2.1, hP.2.2.2, hdot, hm3⟩

def c2w : Doclet :=
  { name := some "counter", longname := some "Example#counter",
    memberof := some "Example", kind := some "member", scope := some "instance",
    codeType := some "ClassProperty", nodeStatic := true }

/-- Witness for C2 at a concrete static class property doclet. -/
theorem C2_static_class_property_witness :
    ∃ e, (parseComplete [c2w])[0]? = some e ∧
      e.scope = some "static" ∧
      e.longname = some ("Example" ++ "." ++ "counter") ∧
      e.memberof = some "Example" ∧
      jsIncludes ("Example" ++ "." ++ "counter") '#' = false ∧
      jsIncludes "Example" '#' = false :=
  C2_static_class_property [c2w] 0 c2w "Example" "counter" rfl (by decide)
    rfl rfl rfl (by decide) (by decide) (by decide) rfl (by decide) (by decide)
    (by decide) (by decide) rfl

theorem hashStarts (s : String) : jsStartsWith ("#" ++ s) "#" = true := by
  show leadsWith (("#" ++ s).data) "#".data = true
  rw [strData_append]
  show leadsWith ('#' :: s.data) ['#'] = true
  unfold leadsWith
  cases s.data <;> simp [leadsWith]

theorem notStartsHash (s : String) (h : jsIncludes s '#' = false) :
    jsStartsWith s "#" = false := by
  rw [jsIncludes_false_iff] at h
  unfold jsStartsWith
  show leadsWith s.data ['#'] = false
  cases hs : s.data with
  | nil => rfl
  | cons a as =>
    have ha : a ≠ '#' := fun hh => h (by rw [hs, hh]; exact List.mem_cons_self _ _)
    unfold leadsWith
    simp [ha]

theorem truthyFormula (o : Option String) (x : String) :
    jsTruthy (some (jsStr o ++ "#" ++ x)) = true := by
  simp only [jsTruthy]
  rw [append_nonempty (jsStr o) "#" x '#' rfl]
  rfl

theorem formulaNeMemberof (o : Option String) (x : String) :
    (some (jsStr o ++ "#" ++ x) == o) = false := by
  cases o with
  | none => rfl
  | some m =>
    rw [beq_eq_false_iff_ne]
    intro h
    exact append_sep_ne_self m "#" x (by decide) (Option.some.inj h)

theorem staticPropRule_id_nonstatic (D : Doclet) (h : D.nodeStatic = false) :
    staticPropRule D = D := by
  unfold staticPropRule staticPropGuard
  rw [h]
  simp

theorem es6StaticRule_id_nonstatic (D : Doclet) (h : D.nodeStatic = false) :
    es6StaticRule D = D := by
  unfold es6StaticRule
  rw [h]
  simp

theorem privateFixAdd (D : Doclet) (nm : String)
    (hd : (isPrivateMethodB D || isPrivatePropertyB D) = true)
    (hname : D.name = some nm)
    (hstart : jsStartsWith nm "#" = false)
    (hln : (!(jsTruthy D.longname) || D.longname == D.memberof) = true) :
    privateFixRule D =
      { D with
          name := some ("#" ++ nm),
          longname := some (jsStr D.memberof ++ "#" ++ ("#" ++ nm)),
          access := some "private" } := by
  unfold privateFixRule
  rw [hd, hname]
  simp only [if_true]
  rw [hstart]
  simp only [Bool.false_eq_true, if_false]
  rw [hln]
  simp

theorem privateFixKeep (D : Doclet) (x : String)
    (hd : (isPrivateMethodB D || isPrivatePropertyB D) = true)
    (hname : D.name = some x)
    (hstart : jsStartsWith x "#" = true)
    (hkeep : (!(jsTruthy D.longname) || D.longname == D.memberof) = false) :
    privateFixRule D = { D with name := some x, access := some "private" } := by
  unfold privateFixRule
  rw [hd, hname]
  simp only [if_true]
  rw [hstart]
  simp only [if_true]
  rw [hkeep]
  simp

theorem phase29Step_nil (d : Doclet) : phase29Step [] d = d := by
  unfold phase29Step
  rfl

theorem list_map_self {α : Type} (f : α → α) (l : List α) (h : ∀ x ∈ l, f x = x) :
    l.map f = l := by
  induction l with
  | nil => rfl
  | cons a as ih =>
    rw [List.map_cons, h a (List.mem_cons_self a as),
      ih fun x hx => h x (List.mem_cons_of_mem a hx)]

theorem staticPropRule_name (d : Doclet) : (staticPropRule d).name = d.name := by
  unfold staticPropRule
  repeat' split
  all_goals rfl

theorem staticPropRule_access (d : Doclet) : (staticPropRule d).access = d.access := by
  unfold staticPropRule
  repeat' split
  all_goals rfl

theorem es6StaticRule_name (d : Doclet) : (es6StaticRule d).name = d.name := by
  unfold es6StaticRule
  repeat' split
  all_goals rfl

theorem es6StaticRule_access (d : Doclet) : (es6StaticRule d).access = d.access := by
  unfold es6StaticRule
  repeat' split
  all_goals rfl

theorem phase29Step_name (statics : List (Option String)) (d : Doclet) :
    (phase29Step statics d).name = d.name := by
  unfold phase29Step
  repeat' split
  all_goals rfl

theorem phase29Step_access (statics : List (Option String)) (d : Doclet) :
    (phase29Step statics d).access = d.access := by
  unfold phase29Step
  repeat' split
  all_goals rfl

theorem b3Apply_name (ds : List Doclet) (d : Doclet) :
    (b3Apply ds d).name = d.name := by
  unfold b3Apply
  repeat' split
  all_goals rfl

theorem b3Apply_access (ds : List Doclet) (d : Doclet) :
    (b3Apply ds d).access = d.access := by
  unfold b3Apply
  repeat' split
  all_goals rfl

theorem privateFixPrependOnly (D : Doclet) (nm : String)
    (hd : (isPrivateMethodB D || isPrivatePropertyB D) = true)
    (hname : D.name = some nm)
    (hstart : jsStartsWith nm "#" = false)
    (hln : (!(jsTruthy D.longname) || D.longname == D.memberof) = false) :
    privateFixRule D = { D with name := some ("#" ++ nm), access := some "private" } := by
  unfold privateFixRule
  rw [hd, hname]
  simp only [if_true]
  rw [hstart]
  simp only [Bool.false_eq_true, if_false]
  rw [hln]
  simp

theorem privDesc_arrow (D : Doclet) :
    (isPrivateMethodB (arrowRule D) || isPrivatePropertyB (arrowRule D)) =
      (isPrivateMethodB D || isPrivatePropertyB D) := by
  unfold isPrivateMethodB isPrivatePropertyB
  rw [arrowRule_nodeType, arrowRule_nodeKeyType, arrowRule_codeType]

theorem phase2Step_private_core (pp : List (Option String)) (d : Doclet) (nm : String)
    (hd : (isPrivateMethodB d || isPrivatePropertyB d) = true)
    (hn : d.name = some nm)
    (hn1 : jsIncludes nm '#' = false) :
    (phase2Step pp d).access = some "private" ∧
    (phase2Step pp d).name = some ("#" ++ nm) := by
  have tail : ∀ x : Doclet,
      (es6StaticRule (staticPropRule x)).access = x.access ∧
      (es6StaticRule (staticPropRule x)).name = x.name := fun x =>
    ⟨by rw [es6StaticRule_access, staticPropRule_access],
     by rw [es6StaticRule_name, staticPropRule_name]⟩
  unfold phase2Step
  cases hpp : privatePropGuard pp d with
  | false =>
    have h0 : privatePropRule pp d = d := by
      unfold privatePropRule
      rw [hpp]
      simp
    rw [h0]
    cases hcv : (!(jsTruthy (arrowRule d).longname)
        || (arrowRule d).longname == (arrowRule d).memberof) with
    | true =>
      rw [privateFixAdd (arrowRule d) nm ((privDesc_arrow d).trans hd)
        ((arrowRule_name d).trans hn) (notStartsHash nm hn1) hcv]
      exact ⟨(tail _).1, (tail _).2⟩
    | false =>
      rw [privateFixPrependOnly (arrowRule d) nm ((privDesc_arrow d).trans hd)
        ((arrowRule_name d).trans hn) (notStartsHash nm hn1) hcv]
      exact ⟨(tail _).1, (tail _).2⟩
  | true =>
    have h0 : privatePropRule pp d =
        { d with
            name := some ("#" ++ nm),
            longname := some (jsStr d.memberof ++ "#" ++ ("#" ++ nm)),
            access := some "private",
            scope := some "instance" } := by
      unfold privatePropRule
      rw [hpp, hn]
      rfl
    rw [h0]
    rw [privateFixKeep
      (arrowRule { d with
          name := some ("#" ++ nm),
          longname := some (jsStr d.memberof ++ "#" ++ ("#" ++ nm)),
          access := some "private",
          scope := some "instance" })
      ("#" ++ nm)
      ((privDesc_arrow _).trans hd)
      ((arrowRule_name _).trans rfl)
      (hashStarts nm)
      (by
        rw [arrowRule_longname, arrowRule_memberof]
        show (!(jsTruthy (some (jsStr d.memberof ++ "#" ++ ("#" ++ nm)))) ||
          (some (jsStr d.memberof ++ "#" ++ ("#" ++ nm)) == d.memberof)) = false
        rw [truthyFormula, formulaNeMemberof]
        rfl)]
    exact ⟨(tail _).1, (tail _).2⟩

theorem privateMemberConditional (ds : List Doclet) (i : Nat) (d : Doclet) (nm : String)
    (hget : ds[i]? = some d)
    (hthrow : parseCompleteThrows ds = false)
    (hd : (isPrivateMethodB d || isPrivatePropertyB d) = true)
    (hn : d.name = some nm)
    (hn1 : jsIncludes nm '#' = false)
    (hln : jsTruthy d.longname = false ∨ d.longname = d.memberof)
    (hstat : ∀ x ∈ ds, x.nodeStatic = false) :
    ∃ e, (parseComplete ds)[i]? = some e ∧
      e.access = some "private" ∧
      e.name = some ("#" ++ nm) ∧
      jsStartsWith ("#" ++ nm) "#" = true ∧
      e.longname = some (jsStr e.memberof ++ "#" ++ ("#" ++ nm)) := by
  have hnsd : d.nodeStatic = false := hstat d (List.getElem?_mem hget)
  -- Phase 2 leaves a doclet satisfying the private-member contract.
  have hP2 : (phase2Step (ppNames ds) d).access = some "private" ∧
      (phase2Step (ppNames ds) d).name = some ("#" ++ nm) ∧
      (phase2Step (ppNames ds) d).longname =
        some (jsStr (phase2Step (ppNames ds) d).memberof ++ "#" ++ ("#" ++ nm)) := by
    unfold phase2Step
    cases hpp : privatePropGuard (ppNames ds) d with
    | false =>
      have h0 : privatePropRule (ppNames ds) d = d := by
        unfold privatePropRule
        rw [hpp]
        simp
      rw [h0]
      have hfix := privateFixAdd (arrowRule d) nm
        ((privDesc_arrow d).trans hd)
        ((arrowRule_name d).trans hn)
        (notStartsHash nm hn1)
        (by
          rw [arrowRule_longname, arrowRule_memberof]
          rcases hln with h | h
          · rw [h]; rfl
          · rw [h]; simp)
      rw [hfix]
      have hns2 : ({ arrowRule d with
          name := some ("#" ++ nm),
          longname := some (jsStr (arrowRule d).memberof ++ "#" ++ ("#" ++ nm)),
          access := some "private" } : Doclet).nodeStatic = false :=
        (arrowRule_nodeStatic d).trans hnsd
      rw [staticPropRule_id_nonstatic _ hns2, es6StaticRule_id_nonstatic _ hns2]
      refine ⟨rfl, rfl, ?_⟩
      rw [arrowRule_memberof]
    | true =>
      have h0 : privatePropRule (ppNames ds) d =
          { d with
              name := some ("#" ++ nm),
              longname := some (jsStr d.memberof ++ "#" ++ ("#" ++ nm)),
              access := some "private",
              scope := some "instance" } := by
        unfold privatePropRule
        rw [hpp, hn]
        rfl
      rw [h0]
      have hfix := privateFixKeep
        (arrowRule { d with
            name := some ("#" ++ nm),
            longname := some (jsStr d.memberof ++ "#" ++ ("#" ++ nm)),
            access := some "private",
            scope := some "instance" })
        ("#" ++ nm)
        ((privDesc_arrow _).trans hd)
        ((arrowRule_name _).trans rfl)
        (hashStarts nm)
        (by
          rw [arrowRule_longname, arrowRule_memberof]
          show (!(jsTruthy (some (jsStr d.memberof ++ "#" ++ ("#" ++ nm)))) ||
            (some (jsStr d.memberof ++ "#" ++ ("#" ++ nm)) == d.memberof)) = false
          rw [truthyFormula, formulaNeMemberof]
          rfl)
      rw [hfix]
      have hns2 : ({ arrowRule { d with
          name := some ("#" ++ nm),
          longname := some (jsStr d.memberof ++ "#" ++ ("#" ++ nm)),
          access := some "private",
          scope := some "instance" } with
            name := some ("#" ++ nm),
            access := some "private" } : Doclet).nodeStatic = false :=
        (arrowRule_nodeStatic _).trans hnsd
      rw [staticPropRule_id_nonstatic _ hns2, es6StaticRule_id_nonstatic _ hns2]
      refine ⟨rfl, rfl, ?_⟩
      rw [arrowRule_longname, arrowRule_memberof]
  -- Phase 2.9 is the identity: no doclet carries a static flag.
  have hSnil : staticNames (phase2Out ds) = [] := by
    apply staticNames_nil_of
    intro x hx
    obtain ⟨y, hy, rfl⟩ := List.mem_map.mp hx
    rw [phase2Step_nodeStatic]
    exact hstat y hy
  have h29eq : phase29Out ds = phase2Out ds := by
    unfold phase29Out
    rw [hSnil]
    exact list_map_self _ _ fun x _ => phase29Step_nil x
  have h29 : (phase29Out ds)[i]? = some (phase2Step (ppNames ds) d) := by
    rw [h29eq]
    unfold phase2Out
    rw [List.getElem?_map, hget]
    rfl
  -- Phase 3 preserves the private-member contract.
  have hstep3 : ∀ (s : List Doclet) (x : Doclet),
      (x.access = some "private" ∧ x.name = some ("#" ++ nm) ∧
        x.longname = some (jsStr x.memberof ++ "#" ++ ("#" ++ nm))) →
      ((phase3Step s x).access = some "private" ∧
        (phase3Step s x).name = some ("#" ++ nm) ∧
        (phase3Step s x).longname =
          some (jsStr (phase3Step s x).memberof ++ "#" ++ ("#" ++ nm))) := by
    intro s x hx
    obtain ⟨h1, h2', h3⟩ := hx
    have hne : (x.name == some "exports") = false := by
      rw [h2']
      exact beq_eq_false_iff_ne.mpr
        fun hh => hash_append_ne_exports nm (Option.some.inj hh)
    unfold phase3Step
    rw [b1Apply_id s x hne, b2Apply_id x hne]
    unfold b3Apply
    cases hg : b3Guard x with
    | false => simp only [Bool.false_eq_true, if_false]; exact ⟨h1, h2', h3⟩
    | true =>
      simp only [if_true]
      cases hf : s.find? fun y => y.kind == some "class" && !(y.name == some "exports") with
      | none => exact ⟨h1, h2', h3⟩
      | some c =>
        refine ⟨h1, h2', ?_⟩
        show some (jsStr c.name ++ "#" ++ jsStr x.name) = _
        rw [h2']
        rfl
  obtain ⟨e, he, hP⟩ := phase3Go_pres
    (fun x => x.access = some "private" ∧ x.name = some ("#" ++ nm) ∧
      x.longname = some (jsStr x.memberof ++ "#" ++ ("#" ++ nm)))
    hstep3 (phase29Out ds).length 0 (phase29Out ds) i _ h29 hP2
  exact ⟨e, he, hP.1, hP.2.1, hashStarts nm, hP.2.2⟩

/-- Claim C1 (amended): for a doclet whose descriptor identifies a
private method or private field, with a string name free of the sigil,
after the collection-complete pass the doclet has access private and its
name is the sigil prepended exactly once, unconditionally; and if
moreover its longname was absent (or empty, or equal to its memberof)
and no doclet of the set carries a static descriptor flag, its longname
is owner, instance separator, then the sigil-bearing name, where an
absent owner prints as the literal text undefined.  The static
sub-passes, when they do apply, rewrite the first instance separator of
such a longname to the static separator. -/
theorem C1_private_member (ds : List Doclet) (i : Nat) (d : Doclet) (nm : String)
    (hget : ds[i]? = some d)
    (hthrow : parseCompleteThrows ds = false)
    (hd : (isPrivateMethodB d || isPrivatePropertyB d) = true)
    (hn : d.name = some nm)
    (hn1 : jsIncludes nm '#' = false) :
    ∃ e, (parseComplete ds)[i]? = some e ∧
      e.access = some "private" ∧
      e.name = some ("#" ++ nm) ∧
      jsStartsWith ("#" ++ nm) "#" = true ∧
      ((jsTruthy d.longname = false ∨ d.longname = d.memberof) →
        (∀ x ∈ ds, x.nodeStatic = false) →
        e.longname = some (jsStr e.memberof ++ "#" ++ ("#" ++ nm))) := by
  by_cases hC : (jsTruthy d.longname = false ∨ d.longname = d.memberof) ∧
      (∀ x ∈ ds, x.nodeStatic = false)
  · obtain ⟨e, he, h1, h2, h3, h4⟩ :=
      privateMemberConditional ds i d nm hget hthrow hd hn hn1 hC.1 hC.2
    exact ⟨e, he, h1, h2, h3, fun _ _ => h4⟩
  · have hP2 := phase2Step_private_core (ppNames ds) d nm hd hn hn1
    have h29 : (phase29Out ds)[i]? =
        some (phase29Step (staticNames (phase2Out ds)) (phase2Step (ppNames ds) d)) := by
      unfold phase29Out
      rw [List.getElem?_map]
      unfold phase2Out
      rw [List.getElem?_map, hget]
      rfl
    have hmid : (phase29Step (staticNames (phase2Out ds))
          (phase2Step (ppNames ds) d)).access = some "private" ∧
        (phase29Step (staticNames (phase2Out ds))
          (phase2Step (ppNames ds) d)).name = some ("#" ++ nm) := by
      rw [phase29Step_access, phase29Step_name]
      exact hP2
    obtain ⟨e, he, hP⟩ := phase3Go_pres
      (fun x => x.access = some "private" ∧ x.name = some ("#" ++ nm))
      (fun s x hx => by
        obtain ⟨hacc, hnam⟩ := hx
        have hne : (x.name == some "exports") = false := by
          rw [hnam]
          exact beq_eq_false_iff_ne.mpr
            fun hh => hash_append_ne_exports nm (Option.some.inj hh)
        show (phase3Step s x).access = some "private" ∧
          (phase3Step s x).name = some ("#" ++ nm)
        unfold phase3Step
        rw [b1Apply_id s x hne, b2Apply_id x hne]
        exact ⟨by rw [b3Apply_access]; exact hacc, by rw [b3Apply_name]; exact hnam⟩)
      (phase29Out ds).length 0 (phase29Out ds) i _ h29 hmid
    exact ⟨e, he, hP.1, hP.2, hashStarts nm, fun ha hb => absurd ⟨ha, hb⟩ hC⟩

def c1cex : Doclet :=
  { name := some "x", memberof := some "A", scope := some "static",
    nodeType := some "MethodDefinition", nodeKeyType := some "PrivateName" }

/-- Claim C1 counterexample: a private-method doclet arriving with scope
static (its descriptor carries no static flag) leaves the
collection-complete pass with scope still static but with the INSTANCE
separator in its derived longname, contradicting the claim that the
longname uses the static separator whenever scope is static. -/
theorem C1_counterexample :
    parseCompleteThrows [c1cex] = false
    ∧ parseComplete [c1cex] =
        [{ c1cex with
            name := some "#x",
            longname := some "A##x",
            access := some "private" }]
    ∧ ((parseComplete [c1cex]).headD default).scope = some "static"
    ∧ ((parseComplete [c1cex]).headD default).longname = some "A##x"
    ∧ "A##x" ≠ "A" ++ "." ++ "#x" := by decide

def c1w : Doclet :=
  { name := some "p", memberof := some "K", kind := some "member",
    nodeType := some "MethodDefinition", nodeKeyType := some "PrivateName" }

/-- Witness for the amended C1 at a concrete private-method doclet. -/
theorem C1_private_member_witness :
    ∃ e, (parseComplete [c1w])[0]? = some e ∧
      e.access = some "private" ∧
      e.name = some ("#" ++ "p") ∧
      jsStartsWith ("#" ++ "p") "#" = true ∧
      ((jsTruthy c1w.longname = false ∨ c1w.longname = c1w.memberof) →
        (∀ x ∈ [c1w], x.nodeStatic = false) →
        e.longname = some (jsStr e.memberof ++ "#" ++ ("#" ++ "p"))) :=
  C1_private_member [c1w] 0 c1w "p" rfl (by decide) (by decide) rfl (by decide)

/-- Claim C10: in the collection-complete pass, when the value-carrying
private-property rule or the private-member common logic derives a
longname for a doclet with no memberof, the JavaScript template literal
coerces the undefined owner to the literal text "undefined", so the
derived longname is "undefined", then the separator, then the
sigil-bearing name. -/
theorem C10_undefined_owner :
    (∀ (pp : List (Option String)) (d : Doclet) (nm : String),
      d.kind = some "member" → d.scope = some "inner" → d.name = some nm →
      pp.contains (some nm) = true → d.memberof = none →
      (privatePropRule pp d).longname = some ("undefined" ++ "#" ++ ("#" ++ nm)) ∧
      (privatePropRule pp d).name = some ("#" ++ nm))
    ∧ (∀ (d : Doclet) (nm : String),
      (isPrivateMethodB d || isPrivatePropertyB d) = true → d.name = some nm →
      jsIncludes nm '#' = false →
      jsTruthy d.longname = false → d.memberof = none →
      (privateFixRule d).longname = some ("undefined" ++ "#" ++ ("#" ++ nm)) ∧
      (privateFixRule d).name = some ("#" ++ nm) ∧
      jsStartsWith ("#" ++ nm) "#" = true) := by
  constructor
  · intro pp d nm hk hs hn hcont hmo
    have hg : privatePropGuard pp d = true := by
      unfold privatePropGuard
      rw [hk, hs, hn, hcont]
      rfl
    have hv : privatePropRule pp d =
        { d with
            name := some ("#" ++ nm),
            longname := some (jsStr d.memberof ++ "#" ++ ("#" ++ nm)),
            access := some "private",
            scope := some "instance" } := by
      unfold privatePropRule
      rw [hg, hn]
      rfl
    rw [hv]
    refine ⟨?_, rfl⟩
    show some (jsStr d.memberof ++ "#" ++ ("#" ++ nm)) = _
    rw [hmo]
    rfl
  · intro d nm hd hn hincl htr hmo
    have hv := privateFixAdd d nm hd hn (notStartsHash nm hincl)
      (by rw [htr]; rfl)
    rw [hv]
    refine ⟨?_, rfl, hashStarts nm⟩
    show some (jsStr d.memberof ++ "#" ++ ("#" ++ nm)) = _
    rw [hmo]
    rfl

def c10a : Doclet :=
  { name := some "v", kind := some "member", scope := some "inner" }

def c10b : Doclet :=
  { name := some "w", nodeType := some "MethodDefinition",
    nodeKeyType := some "PrivateName" }

/-- Witness for C10 at concrete owner-less doclets. -/
theorem C10_undefined_owner_witness :
    ((privatePropRule [some "v"] c10a).longname =
        some ("undefined" ++ "#" ++ ("#" ++ "v")) ∧
      (privatePropRule [some "v"] c10a).name = some ("#" ++ "v"))
    ∧ ((privateFixRule c10b).longname = some ("undefined" ++ "#" ++ ("#" ++ "w")) ∧
      (privateFixRule c10b).name = some ("#" ++ "w") ∧
      jsStartsWith ("#" ++ "w") "#" = true) :=
  ⟨C10_undefined_owner.1 [some "v"] c10a "v" rfl rfl rfl (by decide) rfl,
   C10_undefined_owner.2 c10b "w" (by decide) rfl (by decide) (by decide) rfl⟩

def c4d : Doclet :=
  { name := some "x", memberof := some "A", kind := some "member",
    scope := some "instance", codeType := some "ClassPrivateProperty",
    nodeStatic := true }

/-- Claim C4 (code bug): the pass sequence is not idempotent.  A static
private class property comes out of the first full run with longname
owner static-separator sigil-name; the second run's static propagation
replaces the first remaining instance separator again, turning the sigil
into a second static separator and changing the record. -/
theorem C4_second_run_changes :
    ((processingComplete (parseComplete [c4d])).headD default).longname = some "A.#x"
    ∧ ((processingComplete (parseComplete (processingComplete
        (parseComplete [c4d])))).headD default).longname = some "A..x"
    ∧ processingComplete (parseComplete (processingComplete (parseComplete [c4d])))
        ≠ processingComplete (parseComplete [c4d]) := by decide

def c7d : Doclet :=
  { kind := some "member", name := some "exports", memberof := some "module",
    codeType := some "ObjectExpression" }

/-- Claim C7 (code bug): for an object-literal default export with no
type annotation and no first property key, the resolver produces the
name "undefinedConfig" (JavaScript concatenates the undefined key with
the fixed suffix), so the generic sentinel "defaultExport" named by the
claim and by the source's own dead fallback is unreachable. -/
theorem C7_undefined_config :
    parseComplete [c7d] =
      [{ c7d with
          name := some "undefinedConfig",
          longname := some "undefinedConfig",
          memberof := none }]
    ∧ "undefinedConfig" ≠ "defaultExport"
    ∧ (jsStr c7d.nodeFirstPropKeyName ++ "Config" == "") = false := by decide

def c8cex : Doclet := { codeType := some "ClassPrivateProperty" }

/-- Claim C8 counterexample: a private-field doclet whose name is absent
makes the private-member common logic of parseComplete dereference
name.startsWith on undefined and raise a TypeError, though the claim
says every handler terminates without raising. -/
theorem C8_counterexample :
    (isPrivateMethodB c8cex || isPrivatePropertyB c8cex) = true
    ∧ c8cex.name = none
    ∧ parseCompleteThrows [c8cex] = true := by decide

theorem es6StaticRule_frame (d : Doclet) (hg : es6Guard d = false) :
    es6StaticRule d = d := by
  unfold es6Guard at hg
  unfold es6StaticRule
  cases h1 : (d.codeType == some "ClassProperty"
      || d.codeType == some "MethodDefinition") with
  | false => simp
  | true =>
    rw [h1] at hg
    simp only [Bool.true_and] at hg
    rw [hg]
    simp

theorem sfPhase1_frame (e : SymbolEvent) (hg : sfPhase1Guard e = false) :
    sfPhase1 e = e := by
  unfold sfPhase1Guard at hg
  unfold sfPhase1
  cases h1 : (e.codeName == some "module.exports"
      && (e.codeType == some "ClassDeclaration"
        || e.codeType == some "FunctionDeclaration"
        || e.codeType == some "ObjectExpression")) with
  | false => simp
  | true =>
    rw [h1] at hg
    simp only [Bool.true_and] at hg
    cases h2 : (e.parentType == some "ExportDefaultDeclaration") with
    | false => simp
    | true =>
      rw [h2] at hg
      simp only [Bool.true_and] at hg
      simp only [Bool.or_eq_false_iff] at hg
      obtain ⟨⟨hg1, hg2⟩, hg3⟩ := hg
      simp [hg1, hg2, hg3]

theorem sfPhase15_frame (e : SymbolEvent) (hg : sfPhase15Guard e = false) :
    sfPhase15 e = e := by
  unfold sfPhase15Guard at hg
  unfold sfPhase15
  cases h1 : (e.codeType == some "MethodDefinition"
      && e.parentType == some "ClassBody") with
  | false => simp
  | true =>
    rw [h1] at hg
    simp only [Bool.true_and] at hg
    rw [hg]
    simp

theorem sfPhase16_frame (e : SymbolEvent) (hg : sfPhase16Guard e = false) :
    sfPhase16 e = e := by
  unfold sfPhase16Guard at hg
  unfold sfPhase16
  rw [hg]
  simp

theorem sfPhase2_frame (e : SymbolEvent) (hg : sfPhase2Guard e = false) :
    sfPhase2 e = e := by
  unfold sfPhase2Guard at hg
  unfold sfPhase2
  rw [hg]
  simp

theorem sfPhase3_frame (e : SymbolEvent) (hg : sfPhase3Guard e = false) :
    sfPhase3 e = e := by
  unfold sfPhase3Guard at hg
  unfold sfPhase3
  rw [hg]
  simp

/-- Claim C8 (amended): the handlers raise no exception provided every
private-descriptor doclet and every static-flagged doclet has a name and
every export-default parent node carries its declaration; and a doclet
or event that does not satisfy a rule's shape preconditions (the rule's
complete firing condition) is left completely unmodified by that
rule. -/
theorem C8_fail_open :
    (∀ ds : List Doclet,
      (∀ d ∈ ds, (isPrivateMethodB d || isPrivatePropertyB d) = true → d.name ≠ none) →
      parseCompleteThrows ds = false)
    ∧ (∀ ds : List Doclet,
      (∀ d ∈ ds, d.nodeStatic = true → d.name ≠ none) →
      processingCompleteThrows ds = false)
    ∧ (∀ e : SymbolEvent,
      (e.parentType = some "ExportDefaultDeclaration" → e.declExists = true) →
      symbolFoundThrows e = false)
    ∧ (∀ (pp : List (Option String)) (d : Doclet),
      privatePropGuard pp d = false → privatePropRule pp d = d)
    ∧ (∀ d : Doclet, arrowGuard d = false → arrowRule d = d)
    ∧ (∀ d : Doclet,
      (isPrivateMethodB d || isPrivatePropertyB d) = false → privateFixRule d = d)
    ∧ (∀ d : Doclet, staticPropGuard d = false → staticPropRule d = d)
    ∧ (∀ d : Doclet, es6Guard d = false → es6StaticRule d = d)
    ∧ (∀ (statics : List (Option String)) (d : Doclet),
      statics.contains d.name = false → phase29Step statics d = d)
    ∧ (∀ (s : List Doclet) (d : Doclet), b1Guard d = false → b1Apply s d = d)
    ∧ (∀ d : Doclet, b2Guard d = false → b2Apply d = d)
    ∧ (∀ (s : List Doclet) (d : Doclet), b3Guard d = false → b3Apply s d = d)
    ∧ (∀ (statics : List (Option String)) (d : Doclet),
      statics.contains d.name = false → pcStep statics d = d)
    ∧ (∀ e : SymbolEvent, sfPhase1Guard e = false → sfPhase1 e = e)
    ∧ (∀ e : SymbolEvent, sfPhase15Guard e = false → sfPhase15 e = e)
    ∧ (∀ e : SymbolEvent, sfPhase16Guard e = false → sfPhase16 e = e)
    ∧ (∀ e : SymbolEvent, sfPhase2Guard e = false → sfPhase2 e = e)
    ∧ (∀ e : SymbolEvent, sfPhase3Guard e = false → sfPhase3 e = e) := by
  refine ⟨?_, ?_, ?_, ?_, ?_, ?_, ?_, ?_, ?_, ?_, ?_, ?_, ?_, ?_, ?_, ?_, ?_, ?_⟩
  · intro ds h
    unfold parseCompleteThrows
    rw [List.any_eq_false]
    intro d hd
    cases hpriv : (isPrivateMethodB d || isPrivatePropertyB d) with
    | false => simp [hpriv]
    | true =>
      have := h d hd hpriv
      simp [hpriv, this]
  · intro ds h
    unfold processingCompleteThrows
    rw [List.any_eq_false]
    intro d hd
    cases hn : d.name with
    | some nm => simp
    | none =>
      have hc : (none : Option String) ∉ staticNames ds := by
        intro hmem
        unfold staticNames at hmem
        obtain ⟨y, hy, hys⟩ := List.mem_filterMap.mp hmem
        by_cases hb : y.nodeStatic = true
        · rw [if_pos hb] at hys
          exact h y hy hb (Option.some.inj hys)
        · rw [if_neg hb] at hys
          exact Option.noConfusion hys
      simp [hc]
  · intro e h
    unfold symbolFoundThrows
    by_cases hp : e.parentType = some "ExportDefaultDeclaration"
    · rw [h hp]
      simp
    · rw [beq_eq_false_iff_ne.mpr hp]
      simp
  · intro pp d hg
    unfold privatePropRule
    rw [hg]
    simp
  · intro d hg
    unfold arrowRule
    rw [hg]
    simp
  · intro d hg
    unfold privateFixRule
    rw [hg]
    simp
  · intro d hg
    unfold staticPropRule
    rw [hg]
    simp
  · exact es6StaticRule_frame
  · intro statics d hg
    unfold phase29Step
    rw [hg]
    simp
  · intro s d hg
    unfold b1Apply
    rw [hg]
    simp
  · intro d hg
    unfold b2Apply
    rw [hg]
    simp
  · intro s d hg
    unfold b3Apply
    rw [hg]
    simp
  · intro statics d hg
    unfold pcStep
    rw [hg]
    simp
  · exact sfPhase1_frame
  · exact sfPhase15_frame
  · exact sfPhase16_frame
  · exact sfPhase2_frame
  · exact sfPhase3_frame

def c8w : Doclet := { name := some "n" }

def c8we : SymbolEvent := {}

/-- Witness for the amended C8 at a concrete doclet and event that match
no rule. -/
theorem C8_fail_open_witness :
    parseCompleteThrows [c8w] = false
    ∧ processingCompleteThrows [c8w] = false
    ∧ symbolFoundThrows c8we = false
    ∧ privatePropRule [] c8w = c8w
    ∧ arrowRule c8w = c8w
    ∧ privateFixRule c8w = c8w
    ∧ staticPropRule c8w = c8w
    ∧ es6StaticRule c8w = c8w
    ∧ phase29Step [] c8w = c8w
    ∧ b1Apply [] c8w = c8w
    ∧ b2Apply c8w = c8w
    ∧ b3Apply [] c8w = c8w
    ∧ pcStep [] c8w = c8w
    ∧ sfPhase1 c8we = c8we
    ∧ sfPhase15 c8we = c8we
    ∧ sfPhase16 c8we = c8we
    ∧ sfPhase2 c8we = c8we
    ∧ sfPhase3 c8we = c8we := by
  obtain ⟨a1, a2, a3, f1, f2, f3, f4, f5, f6, f7, f8, f9, f10, s1, s2, s3, s4, s5⟩ :=
    C8_fail_open
  exact ⟨a1 [c8w] (by decide), a2 [c8w] (by decide), a3 c8we (by decide),
    f1 [] c8w (by decide), f2 c8w (by decide), f3 c8w (by decide),
    f4 c8w (by decide), f5 c8w (by decide), f6 [] c8w (by decide),
    f7 [] c8w (by decide), f8 c8w (by decide), f9 [] c8w (by decide),
    f10 [] c8w (by decide), s1 c8we (by decide), s2 c8we (by decide),
    s3 c8we (by decide), s4 c8we (by decide), s5 c8we (by decide)⟩
